import Mathlib

/-!
Verification of the heroacp ACP engine (Rust) against its natural-language
specification.  The Rust sources under `src/` are shallowly embedded as
executable Lean definitions: JSON values become an inductive `Json` type,
the JSON-RPC message structs of `src/protocol/messages.rs` become
structures, the error enum of `src/protocol/errors.rs` becomes an
inductive, the server message loop of `src/server/mod.rs` and the client
terminal manager of `src/client/mod.rs` become explicit state-passing
functions, and the concurrent update/response pipeline of `Server::run`
becomes a small labelled transition system quantified over schedules.
-/

namespace HeroAcp

/-! ## JSON values (shallow embedding of `serde_json::Value`)

JSON numbers are restricted to integers, which covers every number this
protocol produces (ids, error codes, exit codes, plan-step ids). -/

inductive Json where
  | null : Json
  | bool (b : Bool) : Json
  | num (n : Int) : Json
  | str (s : String) : Json
  | arr (elems : List Json) : Json
  | obj (fields : List (String × Json)) : Json
deriving Repr

mutual

/-- Boolean equality on JSON values (used to build the decidable equality). -/
def Json.beq : Json → Json → Bool
  | .null, .null => true
  | .bool a, .bool b => a == b
  | .num a, .num b => a == b
  | .str a, .str b => a == b
  | .arr xs, .arr ys => Json.beqList xs ys
  | .obj fs, .obj gs => Json.beqFields fs gs
  | _, _ => false

/-- Boolean equality on JSON arrays. -/
def Json.beqList : List Json → List Json → Bool
  | [], [] => true
  | x :: xs, y :: ys => Json.beq x y && Json.beqList xs ys
  | _, _ => false

/-- Boolean equality on JSON object field lists. -/
def Json.beqFields : List (String × Json) → List (String × Json) → Bool
  | [], [] => true
  | (k, v) :: fs, (k', v') :: gs => k == k' && Json.beq v v' && Json.beqFields fs gs
  | _, _ => false

end

mutual

def Json.beq_iff : ∀ a b, Json.beq a b = true ↔ a = b
  | .null, b => by cases b <;> simp [Json.beq]
  | .bool a, b => by cases b <;> simp [Json.beq]
  | .num a, b => by cases b <;> simp [Json.beq]
  | .str a, b => by cases b <;> simp [Json.beq]
  | .arr xs, b => by
      cases b <;> simp [Json.beq]
      exact Json.beqList_iff xs _
  | .obj fs, b => by
      cases b <;> simp [Json.beq]
      exact Json.beqFields_iff fs _

def Json.beqList_iff : ∀ xs ys, Json.beqList xs ys = true ↔ xs = ys
  | [], ys => by cases ys <;> simp [Json.beqList]
  | x :: xs, ys => by
      cases ys <;> simp [Json.beqList]
      rw [Json.beq_iff, Json.beqList_iff]

def Json.beqFields_iff : ∀ fs gs, Json.beqFields fs gs = true ↔ fs = gs
  | [], gs => by cases gs <;> simp [Json.beqFields]
  | (k, v) :: fs, gs => by
      cases gs with
      | nil => simp [Json.beqFields]
      | cons hd tl =>
        obtain ⟨k', v'⟩ := hd
        simp [Json.beqFields, Json.beq_iff, Json.beqFields_iff, and_assoc]

end

instance : DecidableEq Json := fun a b =>
  decidable_of_iff (Json.beq a b = true) (Json.beq_iff a b)

/-- Field lookup in an object's field list, first match wins
(mirrors `serde_json::Map` access; our encoders never emit duplicate keys). -/
def findField (k : String) : List (String × Json) → Option Json
  | [] => none
  | (k', v) :: rest => if k' = k then some v else findField k rest

/-- `msg.get(k)` on a `serde_json::Value`: field lookup on objects, `None` otherwise. -/
def Json.get (j : Json) (k : String) : Option Json :=
  match j with
  | .obj fields => findField k fields
  | _ => none

/-- `Value::as_str`. -/
def Json.asStr : Json → Option String
  | .str s => some s
  | _ => none

/-- `Value::as_i64` (restricted to our integer-only numbers). -/
def Json.asInt : Json → Option Int
  | .num n => some n
  | _ => none

/-! ## Error codes and `AcpError` (from `src/protocol/errors.rs`) -/

namespace codes

def PARSE_ERROR : Int := -32700
def INVALID_REQUEST : Int := -32600
def METHOD_NOT_FOUND : Int := -32601
def INVALID_PARAMS : Int := -32602
def INTERNAL_ERROR : Int := -32603
def RESOURCE_NOT_FOUND : Int := -32001
def PERMISSION_DENIED : Int := -32002
def INVALID_STATE : Int := -32003
def CAPABILITY_NOT_SUPPORTED : Int := -32004

end codes

/-- The `AcpError` enum.  Payloads of `IoError`/`JsonError` are abstracted to
their display message, which is all the engine ever uses of them. -/
inductive AcpError where
  | ParseError (s : String)
  | InvalidRequest (s : String)
  | MethodNotFound (s : String)
  | InvalidParams (s : String)
  | InternalError (s : String)
  | ResourceNotFound (s : String)
  | PermissionDenied (s : String)
  | InvalidState (s : String)
  | CapabilityNotSupported (s : String)
  | IoError (s : String)
  | JsonError (s : String)
  | ChannelError (s : String)
  | ConnectionClosed
  | Timeout
deriving DecidableEq, Repr

/-- `AcpError::code`. -/
def AcpError.code : AcpError → Int
  | .ParseError _ => codes.PARSE_ERROR
  | .InvalidRequest _ => codes.INVALID_REQUEST
  | .MethodNotFound _ => codes.METHOD_NOT_FOUND
  | .InvalidParams _ => codes.INVALID_PARAMS
  | .InternalError _ => codes.INTERNAL_ERROR
  | .ResourceNotFound _ => codes.RESOURCE_NOT_FOUND
  | .PermissionDenied _ => codes.PERMISSION_DENIED
  | .InvalidState _ => codes.INVALID_STATE
  | .CapabilityNotSupported _ => codes.CAPABILITY_NOT_SUPPORTED
  | .IoError _ => codes.INTERNAL_ERROR
  | .JsonError _ => codes.PARSE_ERROR
  | .ChannelError _ => codes.INTERNAL_ERROR
  | .ConnectionClosed => codes.INTERNAL_ERROR
  | .Timeout => codes.INTERNAL_ERROR

/-- `AcpError::message` (the `thiserror` display strings). -/
def AcpError.message : AcpError → String
  | .ParseError s => "Parse error: " ++ s
  | .InvalidRequest s => "Invalid request: " ++ s
  | .MethodNotFound s => "Method not found: " ++ s
  | .InvalidParams s => "Invalid params: " ++ s
  | .InternalError s => "Internal error: " ++ s
  | .ResourceNotFound s => "Resource not found: " ++ s
  | .PermissionDenied s => "Permission denied: " ++ s
  | .InvalidState s => "Invalid state: " ++ s
  | .CapabilityNotSupported s => "Capability not supported: " ++ s
  | .IoError s => "I/O error: " ++ s
  | .JsonError s => "JSON error: " ++ s
  | .ChannelError s => "Channel error: " ++ s
  | .ConnectionClosed => "Connection closed"
  | .Timeout => "Request timeout"

/-- `AcpResult<T>`. -/
abbrev AcpResult (α : Type) := Except AcpError α

instance {ε α : Type} [DecidableEq ε] [DecidableEq α] : DecidableEq (Except ε α)
  | .error e, .error e' => decidable_of_iff (e = e') (by simp)
  | .error _, .ok _ => isFalse (by simp)
  | .ok _, .error _ => isFalse (by simp)
  | .ok a, .ok b => decidable_of_iff (a = b) (by simp)

/-! ## JSON-RPC message structs (from `src/protocol/messages.rs`) -/

structure JsonRpcError where
  code : Int
  message : String
  data : Option Json
deriving DecidableEq, Repr

structure JsonRpcRequest where
  jsonrpc : String
  id : Option Json
  method : String
  params : Option Json
deriving DecidableEq, Repr

structure JsonRpcResponse where
  jsonrpc : String
  id : Json
  result : Option Json
  error : Option JsonRpcError
deriving DecidableEq, Repr

structure JsonRpcNotification where
  jsonrpc : String
  method : String
  params : Option Json
deriving DecidableEq, Repr

/-! ## Session update payload types (from `src/protocol/types.rs`) -/

structure ToolCall where
  id : String
  name : String
  arguments : Json
deriving DecidableEq, Repr

inductive ToolCallStatus where
  | InProgress
  | Completed
  | Failed
deriving DecidableEq, Repr

structure ToolCallUpdate where
  id : String
  status : ToolCallStatus
  result : Option Json
  error : Option String
deriving DecidableEq, Repr

inductive PlanStepStatus where
  | Pending
  | InProgress
  | Completed
  | Skipped
  | Failed
deriving DecidableEq, Repr

structure PlanStep where
  id : Nat
  description : String
  status : PlanStepStatus
deriving DecidableEq, Repr

structure Plan where
  steps : List PlanStep
deriving DecidableEq, Repr

inductive SessionUpdateType where
  | AgentMessageChunk (text : String)
  | AgentThoughtChunk (text : String)
  | ToolCall (tc : ToolCall)
  | ToolCallUpdate (u : ToolCallUpdate)
  | Plan (p : Plan)
  | ModeChange (mode : String)
  | Done
deriving DecidableEq, Repr

structure SessionUpdate where
  session_id : String
  update_type : SessionUpdateType
deriving DecidableEq, Repr

/-! ## Serialization (serde `Serialize` derive behaviour)

Fields are emitted in declaration order; `skip_serializing_if = Option::is_none`
fields are omitted when `None`. -/

/-- Emit an optional field: nothing for `None`, the field for `Some`. -/
def optField (k : String) : Option Json → List (String × Json)
  | none => []
  | some v => [(k, v)]

def JsonRpcError.toJson (e : JsonRpcError) : Json :=
  .obj ([("code", .num e.code), ("message", .str e.message)] ++ optField "data" e.data)

def JsonRpcRequest.toJson (r : JsonRpcRequest) : Json :=
  .obj ([("jsonrpc", .str r.jsonrpc)] ++ optField "id" r.id ++
    [("method", .str r.method)] ++ optField "params" r.params)

def JsonRpcResponse.toJson (r : JsonRpcResponse) : Json :=
  .obj ([("jsonrpc", .str r.jsonrpc), ("id", r.id)] ++ optField "result" r.result ++
    optField "error" (r.error.map JsonRpcError.toJson))

def JsonRpcNotification.toJson (n : JsonRpcNotification) : Json :=
  .obj ([("jsonrpc", .str n.jsonrpc), ("method", .str n.method)] ++
    optField "params" n.params)

def ToolCall.toJson (tc : ToolCall) : Json :=
  .obj [("id", .str tc.id), ("name", .str tc.name), ("arguments", tc.arguments)]

def ToolCallStatus.toJson : ToolCallStatus → Json
  | .InProgress => .str "in_progress"
  | .Completed => .str "completed"
  | .Failed => .str "failed"

def ToolCallUpdate.toJson (u : ToolCallUpdate) : Json :=
  .obj ([("id", .str u.id), ("status", u.status.toJson)] ++
    optField "result" u.result ++ optField "error" (u.error.map .str))

def PlanStepStatus.toJson : PlanStepStatus → Json
  | .Pending => .str "pending"
  | .InProgress => .str "in_progress"
  | .Completed => .str "completed"
  | .Skipped => .str "skipped"
  | .Failed => .str "failed"

def PlanStep.toJson (s : PlanStep) : Json :=
  .obj [("id", .num s.id), ("description", .str s.description),
    ("status", s.status.toJson)]

def Plan.toJson (p : Plan) : Json :=
  .obj [("steps", .arr (p.steps.map PlanStep.toJson))]

/-- The `#[serde(tag = "type", content = "data")]` adjacent tagging of
`SessionUpdateType`, as the field list contributed to the flattened struct.
The unit variant `Done` emits no `data` field. -/
def SessionUpdateType.tagFields : SessionUpdateType → List (String × Json)
  | .AgentMessageChunk text =>
      [("type", .str "agent_message_chunk"), ("data", .obj [("text", .str text)])]
  | .AgentThoughtChunk text =>
      [("type", .str "agent_thought_chunk"), ("data", .obj [("text", .str text)])]
  | .ToolCall tc => [("type", .str "tool_call"), ("data", tc.toJson)]
  | .ToolCallUpdate u => [("type", .str "tool_call_update"), ("data", u.toJson)]
  | .Plan p => [("type", .str "plan"), ("data", p.toJson)]
  | .ModeChange mode =>
      [("type", .str "mode_change"), ("data", .obj [("mode", .str mode)])]
  | .Done => [("type", .str "done")]

/-- `SessionUpdate` serialization: `session_id` followed by the
`#[serde(flatten)]`-ed tag/content fields. -/
def SessionUpdate.toJson (u : SessionUpdate) : Json :=
  .obj (("session_id", .str u.session_id) :: u.update_type.tagFields)

/-! ## Deserialization (serde `Deserialize` derive behaviour)

A required field must be present; an `Option` field treats both a missing
key and an explicit `null` as `None` (serde's `Option` deserializer maps
JSON `null` to `None` before the inner type is consulted). -/

/-- Decode an `Option<T>` field: missing or `null` gives `None`. -/
def decodeOptField (j : Json) (k : String) : Option Json :=
  (j.get k).bind fun v => if v = .null then none else some v

def JsonRpcError.fromJson (j : Json) : Option JsonRpcError := do
  let code ← (← j.get "code").asInt
  let message ← (← j.get "message").asStr
  some { code, message, data := decodeOptField j "data" }

def JsonRpcRequest.fromJson (j : Json) : Option JsonRpcRequest := do
  let jsonrpc ← (← j.get "jsonrpc").asStr
  let method ← (← j.get "method").asStr
  some { jsonrpc, id := decodeOptField j "id", method, params := decodeOptField j "params" }

def JsonRpcResponse.fromJson (j : Json) : Option JsonRpcResponse := do
  let jsonrpc ← (← j.get "jsonrpc").asStr
  let id ← j.get "id"
  let error ← match decodeOptField j "error" with
    | none => some none
    | some e => (JsonRpcError.fromJson e).map some
  some { jsonrpc, id, result := decodeOptField j "result", error }

def JsonRpcNotification.fromJson (j : Json) : Option JsonRpcNotification := do
  let jsonrpc ← (← j.get "jsonrpc").asStr
  let method ← (← j.get "method").asStr
  some { jsonrpc, method, params := decodeOptField j "params" }

def ToolCall.fromJson (j : Json) : Option ToolCall := do
  let id ← (← j.get "id").asStr
  let name ← (← j.get "name").asStr
  let arguments ← j.get "arguments"
  some { id, name, arguments }

def ToolCallStatus.fromJson : Json → Option ToolCallStatus
  | .str "in_progress" => some .InProgress
  | .str "completed" => some .Completed
  | .str "failed" => some .Failed
  | _ => none

def ToolCallUpdate.fromJson (j : Json) : Option ToolCallUpdate := do
  let id ← (← j.get "id").asStr
  let status ← ToolCallStatus.fromJson (← j.get "status")
  let error ← match decodeOptField j "error" with
    | none => some none
    | some e => e.asStr.map some
  some { id, status, result := decodeOptField j "result", error }

def PlanStepStatus.fromJson : Json → Option PlanStepStatus
  | .str "pending" => some .Pending
  | .str "in_progress" => some .InProgress
  | .str "completed" => some .Completed
  | .str "skipped" => some .Skipped
  | .str "failed" => some .Failed
  | _ => none

def PlanStep.fromJson (j : Json) : Option PlanStep := do
  let n ← (← j.get "id").asInt
  let description ← (← j.get "description").asStr
  let status ← PlanStepStatus.fromJson (← j.get "status")
  match n with
  | .ofNat m => if m < 4294967296 then some { id := m, description, status } else none
  | .negSucc _ => none

/-- Decode a JSON array of plan steps element by element, failing fast
(serde's sequence deserialization). -/
def decodePlanSteps : List Json → Option (List PlanStep)
  | [] => some []
  | x :: xs => do
      let s ← PlanStep.fromJson x
      let rest ← decodePlanSteps xs
      some (s :: rest)

def Plan.fromJson (j : Json) : Option Plan := do
  match ← j.get "steps" with
  | .arr xs => do
      let steps ← decodePlanSteps xs
      some { steps }
  | _ => none

def SessionUpdateType.fromJson (j : Json) : Option SessionUpdateType := do
  let tag ← (← j.get "type").asStr
  match tag with
  | "agent_message_chunk" => do
      let text ← (← (← j.get "data").get "text").asStr
      some (.AgentMessageChunk text)
  | "agent_thought_chunk" => do
      let text ← (← (← j.get "data").get "text").asStr
      some (.AgentThoughtChunk text)
  | "tool_call" => do
      let tc ← ToolCall.fromJson (← j.get "data")
      some (.ToolCall tc)
  | "tool_call_update" => do
      let u ← ToolCallUpdate.fromJson (← j.get "data")
      some (.ToolCallUpdate u)
  | "plan" => do
      let p ← Plan.fromJson (← j.get "data")
      some (.Plan p)
  | "mode_change" => do
      let mode ← (← (← j.get "data").get "mode").asStr
      some (.ModeChange mode)
  | "done" => some .Done
  | _ => none

def SessionUpdate.fromJson (j : Json) : Option SessionUpdate := do
  let session_id ← (← j.get "session_id").asStr
  let update_type ← SessionUpdateType.fromJson j
  some { session_id, update_type }

/-! ## Key-value tables

Both `pending_requests: HashMap<String, oneshot::Sender<..>>` tables and the
terminal manager's `HashMap<String, _>` tables are modelled as association
lists whose keys are unique by construction (a `HashMap` never holds two
entries for one key), so removal removes every entry with the key. -/

/-- `HashMap::get`. -/
def alistGet {κ α : Type} [DecidableEq κ] (k : κ) : List (κ × α) → Option α
  | [] => none
  | (k', v) :: rest => if k' = k then some v else alistGet k rest

/-- `HashMap::remove`, as the table left behind. -/
def alistRemove {κ α : Type} [DecidableEq κ] (k : κ) : List (κ × α) → List (κ × α)
  | [] => []
  | (k', v) :: rest =>
      if k' = k then alistRemove k rest else (k', v) :: alistRemove k rest

/-! ## Pending-request correlation (from `Server::handle_message`'s response
branch and the client reader task's response branch) -/

/-- `if let Some(tx) = pending.remove(&id_str) { let _ = tx.send(response); }`:
returns the table after the removal together with the completed sender, if
one was registered.  An unregistered id leaves the table unchanged and
completes nothing.  `α` is the type of the oneshot sender; keys are the
request id values themselves (the code keys by their serialization, which
is injective on ids). -/
def resolvePending {α : Type} (pending : List (Json × α)) (idv : Json) :
    List (Json × α) × Option α :=
  match alistGet idv pending with
  | some tx => (alistRemove idv pending, some tx)
  | none => (pending, none)

/-- Process a sequence of inbound Response ids in arrival order; returns the
final pending table and the completions `(id, sender)` that were delivered,
in delivery order. -/
def processResponses {α : Type} (pending : List (Json × α)) :
    List Json → List (Json × α) × List (Json × α)
  | [] => (pending, [])
  | r :: rs =>
      match resolvePending pending r with
      | (p', some tx) =>
          let (pf, cs) := processResponses p' rs
          (pf, (r, tx) :: cs)
      | (p', none) => processResponses p' rs

/-! ## Server message loop (from `Server::run` / `Server::handle_message`)

A line read from stdin either is empty, fails `serde_json::from_str` (with
some parser message), or yields a JSON value; the JSON parser itself is
outside the embedding. -/

inductive InLine where
  | blank
  | malformed (errMsg : String)
  | frame (j : Json)

/-- Per-connection server state touched by `handle_message`: the pending
outgoing-request table (`α` again the oneshot sender type). -/
structure ServerConnState (α : Type) where
  pending_requests : List (Json × α)

/-- The Response the parse-error branch of `Server::handle_message` builds:
id `Null` (the id could not be recovered), code `PARSE_ERROR`. -/
def parseErrorResponse (errMsg : String) : JsonRpcResponse :=
  { jsonrpc := "2.0", id := .null, result := none,
    error := some { code := codes.PARSE_ERROR,
                    message := "Parse error: " ++ errMsg, data := none } }

/-- The Response `handle_message` builds for a Request with id `i` from the
dispatcher's outcome. -/
def responseFor (h : String → Json → AcpResult Json) (m : String) (i p : Json) :
    JsonRpcResponse :=
  match h m p with
  | .ok value => { jsonrpc := "2.0", id := i, result := some value, error := none }
  | .error e =>
      { jsonrpc := "2.0", id := i, result := none,
        error := some { code := e.code, message := e.message, data := none } }

/-- `Server::handle_message`, with the dispatch of `Server::handle_request`
abstracted as `h : method → params → AcpResult Json` (the agent is
arbitrary).  Returns the Response to emit (if any), the new connection
state, and a delivered pending-call completion (if the line was a Response
to an outgoing request). -/
def serverHandleMessage {α : Type} (h : String → Json → AcpResult Json)
    (st : ServerConnState α) (line : InLine) :
    Option JsonRpcResponse × ServerConnState α × Option (α × JsonRpcResponse) :=
  match line with
  | .blank => (none, st, none)
  | .malformed e => (some (parseErrorResponse e), st, none)
  | .frame msg =>
      match (msg.get "method").bind Json.asStr with
      | some m =>
          let params := (msg.get "params").getD .null
          match msg.get "id" with
          | some i => (some (responseFor h m i params), st, none)
          | none => (none, st, none)
      | none =>
          match msg.get "id" with
          | some i =>
              let (p', tx?) := resolvePending st.pending_requests i
              let response : JsonRpcResponse :=
                { jsonrpc := "2.0", id := i, result := msg.get "result",
                  error := (msg.get "error").bind JsonRpcError.fromJson }
              (none, { pending_requests := p' }, tx?.map fun tx => (tx, response))
          | none => (none, st, none)

/-- The main loop of `Server::run`: handle each line in order (blank lines
skipped inside `handle_message` here), collecting the emitted Responses. -/
def serverProcessLines {α : Type} (h : String → Json → AcpResult Json)
    (st : ServerConnState α) :
    List InLine → List JsonRpcResponse × ServerConnState α
  | [] => ([], st)
  | line :: rest =>
      let (resp?, st', _) := serverHandleMessage h st line
      let (resps, stf) := serverProcessLines h st' rest
      (match resp? with
       | some r => r :: resps
       | none => resps, stf)

/-- A well-formed Request line, as the tests send it. -/
def requestJson (m : String) (i p : Json) : Json :=
  .obj [("jsonrpc", .str "2.0"), ("id", i), ("method", .str m), ("params", p)]

/-! ## The session-update / response pipeline of `Server::run`

While one `session/prompt` request is handled, four concurrent tasks touch
the two mpsc channels: the handler pushes updates into `update_tx`; the
spawned forwarder drains `update_rx` and enqueues `session/update`
notifications on `response_tx`; the main loop enqueues the Response on
`response_tx` after the handler returns; the spawned writer drains
`response_rx` onto stdout.  Updates are identified by tokens.  A schedule
is an arbitrary interleaving of these tasks; steps whose channel is empty
or whose guard fails do nothing. -/

inductive OutMsg where
  | update (u : Nat)
  | response
deriving DecidableEq, Repr

structure PipelineState where
  pushes : List Nat
  handlerDone : Bool
  respSent : Bool
  updateQ : List Nat
  outQ : List OutMsg
  wire : List OutMsg
deriving DecidableEq, Repr

inductive PipelineTask where
  | handler
  | forwarder
  | main
  | writer
deriving DecidableEq, Repr

/-- One scheduler step. -/
def pipelineStep (s : PipelineState) : PipelineTask → PipelineState
  | .handler =>
      match s.pushes with
      | u :: rest => { s with pushes := rest, updateQ := s.updateQ ++ [u] }
      | [] => { s with handlerDone := true }
  | .forwarder =>
      match s.updateQ with
      | u :: rest => { s with updateQ := rest, outQ := s.outQ ++ [.update u] }
      | [] => s
  | .main =>
      if s.handlerDone && !s.respSent then
        { s with respSent := true, outQ := s.outQ ++ [.response] }
      else s
  | .writer =>
      match s.outQ with
      | m :: rest => { s with outQ := rest, wire := s.wire ++ [m] }
      | [] => s

def pipelineRun (s : PipelineState) : List PipelineTask → PipelineState
  | [] => s
  | t :: ts => pipelineRun (pipelineStep s t) ts

/-- Initial state: the handler will push the update tokens `us` (in order)
and then return; channels empty, nothing written. -/
def pipelineInit (us : List Nat) : PipelineState :=
  { pushes := us, handlerDone := false, respSent := false,
    updateQ := [], outQ := [], wire := [] }

/-- The update tokens appearing on a frame list, in order. -/
def updatesOf : List OutMsg → List Nat
  | [] => []
  | .update u :: rest => u :: updatesOf rest
  | .response :: rest => updatesOf rest

/-- The claim's ordering property of a wire: no update appears after the
Response. -/
def noUpdateAfterResponse : List OutMsg → Bool
  | [] => true
  | .update _ :: rest => noUpdateAfterResponse rest
  | .response :: rest =>
      !(rest.any fun m => match m with | .update _ => true | .response => false)

/-- A schedule on which the Response overtakes an already-pushed update:
the handler pushes its one update and returns, the main loop enqueues and
the writer writes the Response before the forwarder has moved the update
across. -/
def overtakeSched : List PipelineTask :=
  [.handler, .handler, .main, .writer, .forwarder, .writer]

/-! ## Terminal manager (from `src/client/mod.rs`) -/

/-- Abstract model of a spawned subprocess: the poll index from which
`try_wait` reports it exited (`none` = never exits), its exit code
(`none` = terminated by a signal), and the text the command writes to its
piped stdout (which the manager never reads). -/
structure ProcModel where
  exitAt : Option Nat
  exitCode : Option Int
  stdoutText : String
deriving DecidableEq, Repr

/-- `child.try_wait()` at poll `k`: `some status` once exited (an exited
process keeps reporting the same status), `none` while running. -/
def tryWait (child : ProcModel) (k : Nat) : Option (Option Int) :=
  match child.exitAt with
  | some t => if t ≤ k then some child.exitCode else none
  | none => none

/-- `TerminalManager { terminals, outputs, next_id }`. -/
structure TerminalManager where
  terminals : List (String × ProcModel)
  outputs : List (String × String)
  next_id : Nat
deriving DecidableEq, Repr

def TerminalManager.new : TerminalManager :=
  { terminals := [], outputs := [], next_id := 1 }

/-- `TerminalManager::create`: allocate `term_{next_id}`, spawn the command
(the resulting process is the abstract `proc`), store it, and store an
empty accumulated-output string for it.  `cwd`/`command` configure the
spawn and do not otherwise enter the table. -/
def TerminalManager.create (m : TerminalManager) (cwd command : String)
    (proc : ProcModel) : String × TerminalManager :=
  let id := "term_" ++ toString m.next_id
  (id, { terminals := (id, proc) :: m.terminals,
         outputs := (id, "") :: m.outputs,
         next_id := m.next_id + 1 })

/-- `TerminalManager::get_output` at poll `k`: unknown ids fail with
`ResourceNotFound`; otherwise report the stored output, whether the
process has exited, and its exit code when exited. -/
def TerminalManager.get_output (m : TerminalManager) (terminal_id : String)
    (k : Nat) : AcpResult (String × Bool × Option Int) :=
  match alistGet terminal_id m.terminals with
  | none => .error (.ResourceNotFound terminal_id)
  | some child =>
      match tryWait child k with
      | some status => .ok ((alistGet terminal_id m.outputs).getD "", true, status)
      | none => .ok ((alistGet terminal_id m.outputs).getD "", false, none)

/-- `TerminalManager::kill`: present ids are removed (the process is
killed) and the call succeeds; unknown ids fail with `ResourceNotFound`. -/
def TerminalManager.kill (m : TerminalManager) (terminal_id : String) :
    AcpResult TerminalManager :=
  match alistGet terminal_id m.terminals with
  | some _ => .ok { m with terminals := alistRemove terminal_id m.terminals,
                           outputs := alistRemove terminal_id m.outputs }
  | none => .error (.ResourceNotFound terminal_id)

/-- `TerminalManager::release`: removes unconditionally and always
succeeds. -/
def TerminalManager.release (m : TerminalManager) (terminal_id : String) :
    AcpResult TerminalManager :=
  .ok { m with terminals := alistRemove terminal_id m.terminals,
               outputs := alistRemove terminal_id m.outputs }

/-- 300 s ceiling at one poll per 100 ms. -/
def waitPollLimit : Nat := 3000

/-- The polling loop of the `terminal/wait_for_exit` branch of
`Client::handle_agent_request`: poll `get_output`, return
`(output, exit_code.unwrap_or(-1))` once exited, sleep 100 ms and retry
otherwise; the surrounding `timeout(300s, ..)` yields `Timeout` when the
polls are exhausted. -/
def waitForExitLoop (m : TerminalManager) (terminal_id : String) :
    Nat → Nat → AcpResult (String × Int)
  | 0, _ => .error .Timeout
  | fuel+1, k =>
      match m.get_output terminal_id k with
      | .error e => .error e
      | .ok (output, exited, exit_code) =>
          if exited then .ok (output, exit_code.getD (-1))
          else waitForExitLoop m terminal_id fuel (k+1)

def TerminalManager.wait_for_exit (m : TerminalManager) (terminal_id : String) :
    AcpResult (String × Int) :=
  waitForExitLoop m terminal_id waitPollLimit 0

/-- The `terminal/output` result object built by `handle_agent_request`
(`json!` renders a `None` exit code as `null`). -/
def terminalOutputResponse (output : String) (exited : Bool)
    (exit_code : Option Int) : Json :=
  .obj [("output", .str output), ("exited", .bool exited),
        ("exit_code", exit_code.elim .null .num)]

/-- The `terminal/wait_for_exit` result object built by
`handle_agent_request`. -/
def terminalWaitResponse (output : String) (exit_code : Int) : Json :=
  .obj [("output", .str output), ("exit_code", .num exit_code)]

/-- A process that runs `echo hello`: writes `hello\n` to its piped stdout
and exits with code 0 by the second poll. -/
def procEcho : ProcModel := { exitAt := some 1, exitCode := some 0, stdoutText := "hello\n" }

/-- A process that never exits (`sleep 1000000`). -/
def procForever : ProcModel := { exitAt := none, exitCode := none, stdoutText := "" }

/-- A process already exited without an exit code (killed by a signal). -/
def procSignalled : ProcModel := { exitAt := some 0, exitCode := none, stdoutText := "" }

def echoMgr : TerminalManager :=
  ((TerminalManager.new).create "/" "echo hello" procEcho).2

def foreverMgr : TerminalManager :=
  ((TerminalManager.new).create "/" "sleep 1000000" procForever).2

def signalMgr : TerminalManager :=
  ((TerminalManager.new).create "/" "sleep 100" procSignalled).2

/-- The manager state after `terminal/kill` on `echoMgr`'s only terminal. -/
def killedMgr : TerminalManager :=
  ((echoMgr.kill "term_1").toOption).getD echoMgr

/-! ## Awaiting an outgoing request's Response
(from `Client::send_request` and `Server::send_request`) -/

/-- What eventually happens to a registered oneshot: the Response frame
resolves it at second `t`, the sender is dropped (connection torn down) at
second `t`, or neither ever happens. -/
inductive PendingEvent where
  | response (t : Nat)
  | dropped (t : Nat)
  | never
deriving DecidableEq, Repr

/-- What the caller of `send_request` observes. -/
inductive AwaitOutcome where
  | resolved (t : Nat)
  | timedOut
  | closed
deriving DecidableEq, Repr

/-- `timeout(Duration::from_secs(30), rx)` in `Client::send_request`. -/
def clientRequestTimeoutSecs : Nat := 30

/-- The client's wait: the oneshot wins only if it fires before the
30-second deadline; otherwise the caller observes `AcpError::Timeout`. -/
def clientAwaitResponse : PendingEvent → AwaitOutcome
  | .response t => if t < clientRequestTimeoutSecs then .resolved t else .timedOut
  | .dropped t => if t < clientRequestTimeoutSecs then .closed else .timedOut
  | .never => .timedOut

/-- The second at which the client's wait returns. -/
def clientAwaitReturnTime : PendingEvent → Nat
  | .response t => min t clientRequestTimeoutSecs
  | .dropped t => min t clientRequestTimeoutSecs
  | .never => clientRequestTimeoutSecs

/-- The server's wait in `Server::send_request`: a bare `rx.await` with no
timeout — it returns whenever the oneshot fires or is dropped, and never
returns at all (`none`) when neither happens. -/
def serverAwaitResponse : PendingEvent → Option AwaitOutcome
  | .response t => some (.resolved t)
  | .dropped _ => some .closed
  | .never => none

/-! ## Outgoing request id allocation
(from `Client::send_request` / `Server::send_request`) -/

/-- `u64` modulus. -/
def u64Mod : Nat := 18446744073709551616

/-- One allocation: `let id = *next_id; *next_id += 1;` on a `u64` counter
(wrapping addition in release builds); returns the allocated id and the new
counter. -/
def allocateId (next_id : Nat) : Nat × Nat :=
  (next_id, (next_id + 1) % u64Mod)

/-- Counter value after `k` allocations; both sides initialize it to 1. -/
def idCounterAfter : Nat → Nat
  | 0 => 1
  | k+1 => (allocateId (idCounterAfter k)).2

/-- The id the `n`-th allocation returns (1-indexed). -/
def nthAllocatedId (n : Nat) : Nat := (allocateId (idCounterAfter (n - 1))).1

/-! ## Consuming a Response
(the shared tail of `Client::send_request` and `Server::send_request`) -/

/-- `if let Some(error) = response.error { return Err(InternalError(error.message)); }
Ok(response.result.unwrap_or(Value::Null))`. -/
def consumeResponse (response : JsonRpcResponse) : AcpResult Json :=
  match response.error with
  | some error => .error (.InternalError error.message)
  | none => .ok (response.result.getD .null)

/-! ## Concrete frame values used as evaluation witnesses -/

def reqEx : JsonRpcRequest :=
  { jsonrpc := "2.0", id := some (.num 1), method := "initialize",
    params := some (.obj [("protocol_version", .str "2025.1")]) }

def notifEx : JsonRpcNotification :=
  { jsonrpc := "2.0", method := "session/update",
    params := some (SessionUpdate.toJson ⟨"s1", .AgentMessageChunk "Hello"⟩) }

def respEx : JsonRpcResponse :=
  { jsonrpc := "2.0", id := .num 1,
    result := some (.obj [("status", .str "ok")]), error := none }

def updEx1 : SessionUpdate := ⟨"s1", .AgentMessageChunk "Hi"⟩
def updEx2 : SessionUpdate := ⟨"s1", .AgentThoughtChunk "Hmm"⟩
def updEx3 : SessionUpdate := ⟨"s1", .ToolCall ⟨"t1", "read_file", .obj [("path", .str "/a")]⟩⟩
def updEx4 : SessionUpdate := ⟨"s1", .ToolCallUpdate ⟨"t1", .Completed, some (.str "ok"), none⟩⟩
def updEx5 : SessionUpdate := ⟨"s1", .Plan ⟨[⟨1, "step one", .Pending⟩, ⟨2, "step two", .InProgress⟩]⟩⟩
def updEx6 : SessionUpdate := ⟨"s1", .ModeChange "agent"⟩
def updEx7 : SessionUpdate := ⟨"s1", .Done⟩

/-- The Response the server produces for `session/cancel`: its handler
returns `Ok(Value::Null)`, so the frame has `result: Some(Value::Null)`. -/
def cancelRespEx : JsonRpcResponse :=
  { jsonrpc := "2.0", id := .num 3, result := some .null, error := none }

/-! ## Round-trip validity

serde's `Option` deserializer collapses an explicit JSON `null` to `None`,
so a value only survives the round trip when none of its optional fields is
`Some(Value::Null)`; plan-step ids must also fit in `u32`. -/

/-- An optional JSON field value that is not an explicit `null`. -/
abbrev jsonOptOk (o : Option Json) : Prop := o ≠ some .null

abbrev JsonRpcError.wf (e : JsonRpcError) : Prop := jsonOptOk e.data

abbrev JsonRpcRequest.wf (r : JsonRpcRequest) : Prop :=
  jsonOptOk r.id ∧ jsonOptOk r.params

abbrev JsonRpcNotification.wf (n : JsonRpcNotification) : Prop := jsonOptOk n.params

abbrev JsonRpcResponse.wf (r : JsonRpcResponse) : Prop :=
  jsonOptOk r.result ∧ ∀ e, r.error = some e → e.wf

abbrev ToolCallUpdate.wf (u : ToolCallUpdate) : Prop := jsonOptOk u.result

abbrev Plan.wf (p : Plan) : Prop := ∀ s ∈ p.steps, s.id < 4294967296

abbrev SessionUpdateType.wf : SessionUpdateType → Prop
  | .ToolCallUpdate u => u.wf
  | .Plan p => p.wf
  | _ => True

abbrev SessionUpdate.wf (u : SessionUpdate) : Prop := u.update_type.wf

/-! ## Round-trip lemmas -/

theorem toolCall_roundtrip (tc : ToolCall) : ToolCall.fromJson tc.toJson = some tc := by
  simp [ToolCall.fromJson, ToolCall.toJson, Json.get, findField, Json.asStr]

theorem toolCallStatus_roundtrip (s : ToolCallStatus) :
    ToolCallStatus.fromJson s.toJson = some s := by
  cases s <;> rfl

theorem toolCallUpdate_roundtrip (u : ToolCallUpdate) (h : u.wf) :
    ToolCallUpdate.fromJson u.toJson = some u := by
  obtain ⟨id, status, result, error⟩ := u
  simp only [ToolCallUpdate.wf, jsonOptOk] at h
  cases result <;> cases error <;>
    simp_all [ToolCallUpdate.fromJson, ToolCallUpdate.toJson, Json.get, findField,
      Json.asStr, optField, decodeOptField, toolCallStatus_roundtrip]

theorem planStepStatus_roundtrip (s : PlanStepStatus) :
    PlanStepStatus.fromJson s.toJson = some s := by
  cases s <;> rfl

theorem planStep_roundtrip (s : PlanStep) (h : s.id < 4294967296) :
    PlanStep.fromJson s.toJson = some s := by
  obtain ⟨idv, description, status⟩ := s
  simp_all [PlanStep.fromJson, PlanStep.toJson, Json.get, findField, Json.asInt,
    Json.asStr, planStepStatus_roundtrip]

theorem decodePlanSteps_roundtrip (steps : List PlanStep)
    (h : ∀ s ∈ steps, s.id < 4294967296) :
    decodePlanSteps (steps.map PlanStep.toJson) = some steps := by
  induction steps with
  | nil => rfl
  | cons s rest ih => simp_all [decodePlanSteps, planStep_roundtrip]

theorem plan_roundtrip (p : Plan) (h : p.wf) : Plan.fromJson p.toJson = some p := by
  obtain ⟨steps⟩ := p
  simp only [Plan.wf] at h
  simp [Plan.fromJson, Plan.toJson, Json.get, findField, decodePlanSteps_roundtrip steps h]

theorem sessionUpdateType_roundtrip (sid : String) (t : SessionUpdateType) (h : t.wf) :
    SessionUpdateType.fromJson (.obj (("session_id", .str sid) :: t.tagFields)) = some t := by
  cases t with
  | AgentMessageChunk text =>
      simp [SessionUpdateType.fromJson, SessionUpdateType.tagFields, Json.get,
        findField, Json.asStr]
  | AgentThoughtChunk text =>
      simp [SessionUpdateType.fromJson, SessionUpdateType.tagFields, Json.get,
        findField, Json.asStr]
  | ToolCall tc =>
      simp [SessionUpdateType.fromJson, SessionUpdateType.tagFields, Json.get,
        findField, Json.asStr, toolCall_roundtrip]
  | ToolCallUpdate u =>
      simp [SessionUpdateType.fromJson, SessionUpdateType.tagFields, Json.get,
        findField, Json.asStr, toolCallUpdate_roundtrip u h]
  | Plan p =>
      simp [SessionUpdateType.fromJson, SessionUpdateType.tagFields, Json.get,
        findField, Json.asStr, plan_roundtrip p h]
  | ModeChange mode =>
      simp [SessionUpdateType.fromJson, SessionUpdateType.tagFields, Json.get,
        findField, Json.asStr]
  | Done =>
      simp [SessionUpdateType.fromJson, SessionUpdateType.tagFields, Json.get,
        findField, Json.asStr]

theorem sessionUpdate_roundtrip (u : SessionUpdate) (h : u.wf) :
    SessionUpdate.fromJson u.toJson = some u := by
  obtain ⟨sid, t⟩ := u
  have ht := sessionUpdateType_roundtrip sid t h
  simp [SessionUpdate.fromJson, SessionUpdate.toJson, Json.get, findField,
    Json.asStr, ht]

theorem jsonRpcError_roundtrip (e : JsonRpcError) (h : e.wf) :
    JsonRpcError.fromJson e.toJson = some e := by
  obtain ⟨code, message, data⟩ := e
  simp only [JsonRpcError.wf, jsonOptOk] at h
  cases data <;>
    simp_all [JsonRpcError.fromJson, JsonRpcError.toJson, Json.get, findField,
      Json.asInt, Json.asStr, optField, decodeOptField]

theorem jsonRpcRequest_roundtrip (r : JsonRpcRequest) (h : r.wf) :
    JsonRpcRequest.fromJson r.toJson = some r := by
  obtain ⟨jsonrpc, id, method, params⟩ := r
  obtain ⟨h1, h2⟩ := h
  simp only [jsonOptOk] at h1 h2
  cases id <;> cases params <;>
    simp_all [JsonRpcRequest.fromJson, JsonRpcRequest.toJson, Json.get, findField,
      Json.asStr, optField, decodeOptField]

theorem jsonRpcNotification_roundtrip (n : JsonRpcNotification) (h : n.wf) :
    JsonRpcNotification.fromJson n.toJson = some n := by
  obtain ⟨jsonrpc, method, params⟩ := n
  simp only [JsonRpcNotification.wf, jsonOptOk] at h
  cases params <;>
    simp_all [JsonRpcNotification.fromJson, JsonRpcNotification.toJson, Json.get,
      findField, Json.asStr, optField, decodeOptField]

theorem JsonRpcError.toJson_ne_null (e : JsonRpcError) : e.toJson ≠ .null := by
  simp [JsonRpcError.toJson]

theorem jsonRpcResponse_roundtrip (r : JsonRpcResponse) (h : r.wf) :
    JsonRpcResponse.fromJson r.toJson = some r := by
  obtain ⟨jsonrpc, id, result, error⟩ := r
  obtain ⟨h1, h2⟩ := h
  simp only [jsonOptOk] at h1
  cases error with
  | none =>
      cases result <;>
        simp_all [JsonRpcResponse.fromJson, JsonRpcResponse.toJson, Json.get,
          findField, Json.asStr, optField, decodeOptField]
  | some e =>
      have he := jsonRpcError_roundtrip e (h2 e rfl)
      cases result <;>
        simp_all [JsonRpcResponse.fromJson, JsonRpcResponse.toJson, Json.get,
          findField, Json.asStr, optField, decodeOptField,
          JsonRpcError.toJson_ne_null]

end HeroAcp

namespace HeroAcp

/-! ## Claim C8: serialization round-trip -/

/-- C8 (amended): serializing then deserializing yields an equal value for
every Request, Notification, or Response — including `session/update`
payloads of every update kind — provided no optional field is an explicit
JSON `null` (and plan-step ids fit in `u32`).  A present-but-`null`
optional field deserializes to an absent one. -/
theorem C8_frame_roundtrip :
    (∀ r : JsonRpcRequest, r.wf → JsonRpcRequest.fromJson r.toJson = some r) ∧
    (∀ n : JsonRpcNotification, n.wf → JsonRpcNotification.fromJson n.toJson = some n) ∧
    (∀ r : JsonRpcResponse, r.wf → JsonRpcResponse.fromJson r.toJson = some r) ∧
    (∀ u : SessionUpdate, u.wf → SessionUpdate.fromJson u.toJson = some u) :=
  ⟨jsonRpcRequest_roundtrip, jsonRpcNotification_roundtrip,
    jsonRpcResponse_roundtrip, sessionUpdate_roundtrip⟩

/-- C8 counterexample: the `session/cancel` Response (`result: null`,
carrying exactly one of result/error, hence a valid Frame) does not
round-trip — decoding its encoding drops the `result` field. -/
theorem C8_counterexample :
    cancelRespEx.result.isSome ∧ cancelRespEx.error.isNone ∧
      JsonRpcResponse.fromJson cancelRespEx.toJson ≠ some cancelRespEx ∧
      JsonRpcResponse.fromJson cancelRespEx.toJson =
        some { jsonrpc := "2.0", id := .num 3, result := none, error := none } := by
  refine ⟨rfl, rfl, ?_, rfl⟩
  decide

/-- C8 witness: the round-trip theorem applied to concrete frames of every
kind, each hypothesis discharged by evaluation. -/
theorem C8_frame_roundtrip_witness :
    JsonRpcRequest.fromJson reqEx.toJson = some reqEx ∧
    JsonRpcNotification.fromJson notifEx.toJson = some notifEx ∧
    JsonRpcResponse.fromJson respEx.toJson = some respEx ∧
    SessionUpdate.fromJson updEx1.toJson = some updEx1 ∧
    SessionUpdate.fromJson updEx2.toJson = some updEx2 ∧
    SessionUpdate.fromJson updEx3.toJson = some updEx3 ∧
    SessionUpdate.fromJson updEx4.toJson = some updEx4 ∧
    SessionUpdate.fromJson updEx5.toJson = some updEx5 ∧
    SessionUpdate.fromJson updEx6.toJson = some updEx6 ∧
    SessionUpdate.fromJson updEx7.toJson = some updEx7 :=
  ⟨C8_frame_roundtrip.1 reqEx (by decide),
   C8_frame_roundtrip.2.1 notifEx (by decide),
   C8_frame_roundtrip.2.2.1 respEx ⟨by decide, by simp [respEx, JsonRpcResponse.wf]⟩,
   C8_frame_roundtrip.2.2.2 updEx1 (by trivial),
   C8_frame_roundtrip.2.2.2 updEx2 (by trivial),
   C8_frame_roundtrip.2.2.2 updEx3 (by trivial),
   C8_frame_roundtrip.2.2.2 updEx4 (by unfold updEx4; decide),
   C8_frame_roundtrip.2.2.2 updEx5 (by unfold updEx5; decide),
   C8_frame_roundtrip.2.2.2 updEx6 (by trivial),
   C8_frame_roundtrip.2.2.2 updEx7 (by trivial)⟩

end HeroAcp

namespace HeroAcp

/-! ## Helper lemmas on tables and the polling loop -/

theorem alistGet_remove_self {κ α : Type} [DecidableEq κ] (k : κ) (l : List (κ × α)) :
    alistGet k (alistRemove k l) = none := by
  induction l with
  | nil => rfl
  | cons p rest ih =>
      obtain ⟨k', v⟩ := p
      by_cases hk : k' = k <;> simp_all [alistRemove, alistGet, hk]

theorem alistGet_remove_ne {κ α : Type} [DecidableEq κ] (k k' : κ) (l : List (κ × α))
    (h : k' ≠ k) : alistGet k' (alistRemove k l) = alistGet k' l := by
  induction l with
  | nil => rfl
  | cons p rest ih =>
      obtain ⟨k0, v⟩ := p
      by_cases h0 : k0 = k
      · subst h0
        simp_all [alistRemove, alistGet, Ne.symm h]
      · by_cases h1 : k0 = k' <;> simp_all [alistRemove, alistGet]

theorem alistRemove_of_get_none {κ α : Type} [DecidableEq κ] (k : κ) (l : List (κ × α))
    (h : alistGet k l = none) : alistRemove k l = l := by
  induction l with
  | nil => rfl
  | cons p rest ih =>
      obtain ⟨k', v⟩ := p
      simp only [alistGet] at h
      by_cases hk : k' = k
      · simp [hk] at h
      · simp only [alistRemove, if_neg hk]
        rw [ih (by simpa [hk] using h)]

theorem filterMapExt {α β : Type} (f g : α → Option β) :
    ∀ l : List α, (∀ x ∈ l, f x = g x) → l.filterMap f = l.filterMap g := by
  intro l
  induction l with
  | nil => intro _; rfl
  | cons x xs ih =>
      intro h
      have hx := h x (by simp)
      have hxs := ih fun y hy => h y (by simp [hy])
      simp [List.filterMap_cons, hx, hxs]

theorem waitForExitLoop_notfound (m : TerminalManager) (tid : String) (fuel k : Nat)
    (h : alistGet tid m.terminals = none) :
    waitForExitLoop m tid (fuel + 1) k = .error (.ResourceNotFound tid) := by
  simp [waitForExitLoop, TerminalManager.get_output, h]

theorem waitForExitLoop_running (m : TerminalManager) (tid : String) (proc : ProcModel)
    (hget : alistGet tid m.terminals = some proc) (hrun : proc.exitAt = none) :
    ∀ fuel k, waitForExitLoop m tid fuel k = .error .Timeout := by
  intro fuel
  induction fuel with
  | zero => intro k; rfl
  | succ f ih =>
      intro k
      simp [waitForExitLoop, TerminalManager.get_output, hget, tryWait, hrun, ih]

/-! ## Claim C9: peer error codes are collapsed to `InternalError` -/

/-- C9: when the peer's Response carries an error object, both
`Client::send_request` and `Server::send_request` hand the caller
`Err(InternalError(message))`: the observed code is always -32603
whatever the peer's code was, and two error objects agreeing on the
message but differing in code are indistinguishable to the caller. -/
theorem C9_error_code_discarded (resp : JsonRpcResponse) (e : JsonRpcError)
    (h : resp.error = some e) :
    consumeResponse resp = .error (.InternalError e.message) ∧
    (∀ err, consumeResponse resp = .error err → err.code = codes.INTERNAL_ERROR) ∧
    (∀ resp' e', resp'.error = some e' → e'.message = e.message →
        consumeResponse resp' = consumeResponse resp) := by
  refine ⟨by simp [consumeResponse, h], ?_, ?_⟩
  · intro err herr
    simp [consumeResponse, h] at herr
    simp [← herr, AcpError.code]
  · intro resp' e' h' hm
    simp [consumeResponse, h, h', hm]

/-- C9 witness: a Resource-Not-Found error Response (code -32001) is
observed as `InternalError` with code -32603. -/
theorem C9_error_code_discarded_witness :
    consumeResponse ⟨"2.0", .num 7, none, some ⟨-32001, "Resource not found: term_9", none⟩⟩
      = .error (.InternalError "Resource not found: term_9") ∧
    (AcpError.InternalError "Resource not found: term_9").code = -32603 :=
  ⟨(C9_error_code_discarded _ _ rfl).1, by decide⟩

/-! ## Claim C10: exit without a code -/

/-- C10: for a terminal whose process has exited without an exit code
(killed by a signal), `terminal/wait_for_exit` reports exit code -1
(`exit_code.unwrap_or(-1)`), while `terminal/output` on the same state
reports `exited: true` with `exit_code: null`. -/
theorem C10_signal_exit (m : TerminalManager) (tid : String) (proc : ProcModel)
    (hget : alistGet tid m.terminals = some proc)
    (hexit : proc.exitAt = some 0) (hcode : proc.exitCode = none) :
    (∀ k, m.get_output tid k = .ok ((alistGet tid m.outputs).getD "", true, none)) ∧
    m.wait_for_exit tid = .ok ((alistGet tid m.outputs).getD "", -1) ∧
    (terminalOutputResponse ((alistGet tid m.outputs).getD "") true none).get "exited"
        = some (.bool true) ∧
    (terminalOutputResponse ((alistGet tid m.outputs).getD "") true none).get "exit_code"
        = some .null ∧
    (terminalWaitResponse ((alistGet tid m.outputs).getD "") (-1)).get "exit_code"
        = some (.num (-1)) := by
  have hout : ∀ k, m.get_output tid k = .ok ((alistGet tid m.outputs).getD "", true, none) := by
    intro k
    simp [TerminalManager.get_output, hget, tryWait, hexit, hcode]
  refine ⟨hout, ?_, ?_, ?_, ?_⟩
  · show waitForExitLoop m tid 3000 0 = _
    rw [show (3000 : Nat) = 2999 + 1 from rfl, waitForExitLoop, hout 0]
    simp
  · simp [terminalOutputResponse, Json.get, findField]
  · simp [terminalOutputResponse, Json.get, findField]
  · simp [terminalWaitResponse, Json.get, findField]

/-- C10 witness: the signalled-process manager evaluated concretely. -/
theorem C10_signal_exit_witness :
    signalMgr.get_output "term_1" 0 = .ok ("", true, none) ∧
    signalMgr.wait_for_exit "term_1" = .ok ("", -1) :=
  ⟨(C10_signal_exit signalMgr "term_1" procSignalled (by decide) rfl rfl).1 0,
   (C10_signal_exit signalMgr "term_1" procSignalled (by decide) rfl rfl).2.1⟩

end HeroAcp

namespace HeroAcp

/-! ## Claim C3: `terminal/wait_for_exit` polling and lost stdout -/

/-- C3 (code-bug evidence): the polling loop does detect the exit of the
`echo hello` process within the ceiling and returns its exit code 0, and a
never-exiting process makes it fail with `Timeout`; but the output returned
is the empty string, not the `hello` line the command wrote — the manager
pipes the child's stdout and initializes `outputs[id]` to `""` at create,
and no code ever appends the child's stdout to it. -/
theorem C3_wait_for_exit_output_lost :
    echoMgr.wait_for_exit "term_1" = .ok ("", 0) ∧
    procEcho.stdoutText = "hello\n" ∧
    foreverMgr.wait_for_exit "term_1" = .error .Timeout := by
  refine ⟨by decide, rfl, ?_⟩
  exact waitForExitLoop_running foreverMgr "term_1" procForever (by decide) rfl
    waitPollLimit 0

/-! ## Claim C4: operations after `terminal/kill` -/

/-- C4 (amended): `terminal/kill` removes the record, and afterwards
`terminal/output`, `terminal/wait_for_exit` and `terminal/kill` on that
id fail with `ResourceNotFound`, whose JSON-RPC code is -32001; but
`terminal/release` on the already-removed id succeeds as a no-op — it does
not fail with Resource Not Found. -/
theorem C4_kill_then_not_found (m m' : TerminalManager) (tid : String)
    (hk : m.kill tid = .ok m') :
    alistGet tid m'.terminals = none ∧
    (∀ k, m'.get_output tid k = .error (.ResourceNotFound tid)) ∧
    m'.wait_for_exit tid = .error (.ResourceNotFound tid) ∧
    m'.kill tid = .error (.ResourceNotFound tid) ∧
    m'.release tid = .ok m' ∧
    (AcpError.ResourceNotFound tid).code = -32001 := by
  have hm' : m' = { m with terminals := alistRemove tid m.terminals,
                           outputs := alistRemove tid m.outputs } := by
    revert hk
    unfold TerminalManager.kill
    cases halist : alistGet tid m.terminals with
    | none => intro hk; exact absurd hk (by simp)
    | some proc => intro hk; simpa using hk.symm
  have hnone : alistGet tid m'.terminals = none := by
    rw [hm']
    exact alistGet_remove_self tid m.terminals
  have hnoneOut : alistGet tid m'.outputs = none := by
    rw [hm']
    exact alistGet_remove_self tid m.outputs
  refine ⟨hnone, ?_, ?_, ?_, ?_, rfl⟩
  · intro k
    simp [TerminalManager.get_output, hnone]
  · show waitForExitLoop m' tid 3000 0 = _
    rw [show (3000 : Nat) = 2999 + 1 from rfl]
    exact waitForExitLoop_notfound m' tid 2999 0 hnone
  · simp [TerminalManager.kill, hnone]
  · show Except.ok _ = Except.ok m'
    rw [alistRemove_of_get_none tid m'.terminals hnone,
        alistRemove_of_get_none tid m'.outputs hnoneOut]

/-- C4 counterexample: on the claim's own scenario — a kill followed by a
release of the same id — the second call returns success, not the claimed
Resource Not Found failure. -/
theorem C4_counterexample :
    echoMgr.kill "term_1" = .ok killedMgr ∧
    killedMgr.kill "term_1" = .error (.ResourceNotFound "term_1") ∧
    killedMgr.release "term_1" = .ok killedMgr := by
  decide

/-- C4 witness: the amended lifecycle evaluated on the concrete killed
manager. -/
theorem C4_kill_then_not_found_witness :
    killedMgr.get_output "term_1" 0 = .error (.ResourceNotFound "term_1") ∧
    killedMgr.wait_for_exit "term_1" = .error (.ResourceNotFound "term_1") ∧
    killedMgr.kill "term_1" = .error (.ResourceNotFound "term_1") ∧
    killedMgr.release "term_1" = .ok killedMgr ∧
    (AcpError.ResourceNotFound "term_1").code = -32001 :=
  have h := C4_kill_then_not_found echoMgr killedMgr "term_1" (by decide)
  ⟨h.2.1 0, h.2.2.1, h.2.2.2.1, h.2.2.2.2.1, h.2.2.2.2.2⟩

end HeroAcp

namespace HeroAcp

/-! ## Claim C5: request timeout -/

/-- C5 (amended): `Client::send_request` bounds its wait by the default
30-second timeout — the caller returns within 30 seconds, observing
`Timeout` whenever the Response has not resolved the oneshot strictly
before the deadline — and on timeout the pending entry is abandoned in the
table, so a subsequent stray resolve removes it (delivering into the
dropped receiver, a no-op) and any later resolve finds nothing.
`Server::send_request`, however, has no timeout at all: its bare
`rx.await` never produces a `Timeout` outcome and does not return until
the Response arrives or the connection closes. -/
theorem C5_timeout_client_only :
    (∀ ev, clientAwaitReturnTime ev ≤ clientRequestTimeoutSecs) ∧
    (∀ t, clientRequestTimeoutSecs ≤ t →
        clientAwaitResponse (.response t) = .timedOut) ∧
    clientAwaitResponse .never = .timedOut ∧
    (∀ ev, serverAwaitResponse ev ≠ some .timedOut) ∧
    (∀ (α : Type) (pending : List (Json × α)) (idv : Json) (tx : α),
        alistGet idv pending = some tx →
          (resolvePending pending idv).2 = some tx ∧
          resolvePending (resolvePending pending idv).1 idv
            = ((resolvePending pending idv).1, none)) := by
  refine ⟨?_, ?_, rfl, ?_, ?_⟩
  · intro ev
    cases ev <;> simp [clientAwaitReturnTime]
  · intro t ht
    simp [clientAwaitResponse, Nat.not_lt.mpr ht]
  · intro ev h
    cases ev <;> simp [serverAwaitResponse] at h
  · intro α pending idv tx h
    refine ⟨by simp [resolvePending, h], ?_⟩
    simp [resolvePending, h, alistGet_remove_self]

/-- C5 counterexample: a Response arriving only at second 100 still
resolves the server-side caller normally at second 100 — the wait was not
bounded by 30 seconds and no Timeout was observed — and when no Response
ever arrives the server-side wait never returns at all. -/
theorem C5_counterexample :
    serverAwaitResponse (.response 100) = some (.resolved 100) ∧
    serverAwaitResponse (.response 100) ≠ some .timedOut ∧
    serverAwaitResponse .never = none ∧
    clientAwaitResponse (.response 100) = .timedOut := by
  decide

/-- C5 witness: the amended theorem evaluated at concrete events. -/
theorem C5_timeout_client_only_witness :
    clientAwaitReturnTime (.response 100) ≤ 30 ∧
    clientAwaitResponse (.response 31) = .timedOut ∧
    serverAwaitResponse (.response 5) ≠ some .timedOut ∧
    (resolvePending [((.num 1 : Json), 42)] (.num 1)).2 = some 42 ∧
    resolvePending (resolvePending [((.num 1 : Json), 42)] (.num 1)).1 (.num 1)
      = ((resolvePending [((.num 1 : Json), 42)] (.num 1)).1, none) :=
  have h5 := C5_timeout_client_only.2.2.2.2 Nat [((.num 1 : Json), 42)] (.num 1) 42 (by decide)
  ⟨C5_timeout_client_only.1 (.response 100),
   C5_timeout_client_only.2.1 31 (by decide),
   C5_timeout_client_only.2.2.2.1 (.response 5),
   h5.1, h5.2⟩

/-! ## Claim C7: id allocation -/

/-- Closed form of the allocation counter. -/
theorem idCounterAfter_eq (k : Nat) : idCounterAfter k = (1 + k) % u64Mod := by
  induction k with
  | zero => simp [idCounterAfter, u64Mod]
  | succ n ih =>
      show (allocateId (idCounterAfter n)).2 = _
      rw [ih]
      simp only [allocateId, u64Mod] at *
      omega

/-- Closed form of the `n`-th allocated id. -/
theorem nthAllocatedId_eq (n : Nat) (h : 1 ≤ n) : nthAllocatedId n = n % u64Mod := by
  unfold nthAllocatedId allocateId
  rw [idCounterAfter_eq]
  have hn : 1 + (n - 1) = n := by omega
  rw [hn]

/-- C7 (amended): outgoing request ids start at 1 and increase by exactly
one per allocation: as long as fewer than 2^64 requests have been sent on
the connection, the n-th allocated id is n, so ids are strictly increasing
and pairwise distinct.  The counter is a wrapping u64, so the guarantee is
bounded by 2^64 - 1 allocations rather than the connection's whole
lifetime. -/
theorem C7_id_allocation (n m : Nat) (h1 : 1 ≤ n) (h2 : n < u64Mod)
    (h3 : 1 ≤ m) (h4 : m < n) :
    nthAllocatedId 1 = 1 ∧
    nthAllocatedId n = n ∧
    nthAllocatedId m < nthAllocatedId n ∧
    nthAllocatedId m ≠ nthAllocatedId n := by
  have hn : nthAllocatedId n = n := by
    rw [nthAllocatedId_eq n h1, Nat.mod_eq_of_lt h2]
  have hm : nthAllocatedId m = m := by
    rw [nthAllocatedId_eq m h3, Nat.mod_eq_of_lt (lt_trans h4 h2)]
  refine ⟨?_, hn, ?_, ?_⟩
  · rw [nthAllocatedId_eq 1 le_rfl]
    rfl
  · rw [hn, hm]; exact h4
  · rw [hn, hm]; omega

/-- C7 counterexample: at the 2^64-th allocation the wrapping counter
hands out id 0, and the allocation after that hands out 1 again — the same
id as the very first allocation — so ids are not unique for the entire
lifetime of a (sufficiently long-lived) connection. -/
theorem C7_counterexample :
    nthAllocatedId u64Mod = 0 ∧
    nthAllocatedId u64Mod ≠ u64Mod ∧
    nthAllocatedId (u64Mod + 1) = 1 ∧
    nthAllocatedId 1 = 1 ∧
    u64Mod + 1 ≠ 1 := by
  have h1 : nthAllocatedId u64Mod = 0 := by
    rw [nthAllocatedId_eq u64Mod (by simp [u64Mod])]
    simp
  have h2 : nthAllocatedId (u64Mod + 1) = 1 := by
    rw [nthAllocatedId_eq (u64Mod + 1) (by simp)]
    simp [u64Mod]
  refine ⟨h1, by rw [h1]; norm_num [u64Mod], h2, ?_, by norm_num [u64Mod]⟩
  rw [nthAllocatedId_eq 1 le_rfl]
  rfl

/-- C7 witness: the amended statement evaluated at n = 3, m = 1. -/
theorem C7_id_allocation_witness :
    nthAllocatedId 1 = 1 ∧ nthAllocatedId 3 = 3 ∧
    nthAllocatedId 1 < nthAllocatedId 3 ∧ nthAllocatedId 1 ≠ nthAllocatedId 3 :=
  C7_id_allocation 3 1 (by decide) (by norm_num [u64Mod]) (by decide) (by decide)

end HeroAcp

namespace HeroAcp

/-! ## Claim C2: response correlation -/

/-- C2: resolving an inbound Response against the pending table (the
response branches of `Server::handle_message` and the client reader task):
a Response whose id is registered removes exactly that entry and completes
exactly its sender, leaving every other entry untouched; a Response whose
id matches nothing is a silent no-op on the table; and for any arrival
order of distinct Response ids, every id completes precisely the sender
originally registered under it, independently of the order. -/
theorem C2_response_resolution {α : Type} (pending : List (Json × α)) (idv : Json) :
    (∀ tx, alistGet idv pending = some tx →
        resolvePending pending idv = (alistRemove idv pending, some tx) ∧
        alistGet idv (alistRemove idv pending) = none ∧
        (∀ k, k ≠ idv → alistGet k (alistRemove idv pending) = alistGet k pending)) ∧
    (alistGet idv pending = none → resolvePending pending idv = (pending, none)) ∧
    (∀ rs : List Json, rs.Nodup →
        (processResponses pending rs).2 =
          rs.filterMap fun r => (alistGet r pending).map fun tx => (r, tx)) := by
  refine ⟨?_, ?_, ?_⟩
  · intro tx h
    exact ⟨by simp [resolvePending, h], alistGet_remove_self idv pending,
      fun k hk => alistGet_remove_ne idv k pending hk⟩
  · intro h
    simp [resolvePending, h]
  · intro rs
    induction rs generalizing pending with
    | nil => intro _; rfl
    | cons r rest ih =>
        intro hnd
        have hr : r ∉ rest := by simp [List.nodup_cons] at hnd; exact hnd.1
        have hrest : rest.Nodup := by simp [List.nodup_cons] at hnd; exact hnd.2
        simp only [processResponses, resolvePending]
        cases hget : alistGet r pending with
        | some tx =>
            simp only [List.filterMap_cons, hget, Option.map_some]
            have hih := ih (alistRemove r pending) hrest
            rw [hih]
            have hsame : ∀ x ∈ rest,
                ((alistGet x (alistRemove r pending)).map fun tx => (x, tx))
                  = ((alistGet x pending).map fun tx => (x, tx)) := by
              intro x hx
              rw [alistGet_remove_ne r x pending (fun hxy => hr (hxy ▸ hx))]
            rw [filterMapExt _ _ rest hsame]
            simp
        | none =>
            simp only [List.filterMap_cons, hget, Option.map_none]
            exact ih pending hrest

/-- C2 witness: the spec's out-of-order test — register ids 1, 2, 3, let
the Responses arrive in order 3, 1, 2 — each Response completes exactly
its own sender; and a Response with unregistered id 9 is a no-op. -/
theorem C2_response_resolution_witness :
    (processResponses [((.num 1 : Json), 10), (.num 2, 20), (.num 3, 30)]
        [.num 3, .num 1, .num 2]).2
      = [(.num 3, 30), (.num 1, 10), (.num 2, 20)] ∧
    resolvePending [((.num 1 : Json), 10), (.num 2, 20), (.num 3, 30)] (.num 9)
      = ([((.num 1 : Json), 10), (.num 2, 20), (.num 3, 30)], none) :=
  have h := C2_response_resolution [((.num 1 : Json), 10), (.num 2, 20), (.num 3, 30)] (.num 9)
  ⟨by
    rw [(C2_response_resolution [((.num 1 : Json), 10), (.num 2, 20), (.num 3, 30)]
      (.num 9)).2.2 [.num 3, .num 1, .num 2] (by decide)]
    decide,
   h.2.1 (by decide)⟩

/-! ## Claim C6: parse errors do not kill the connection -/

/-- C6: a line that is not valid JSON makes `Server::handle_message` emit a
Response with id `Null` and code -32700, leaves the connection state
untouched, and the read loop goes on: a following well-formed Request is
dispatched to the handler and answered with its result, exactly as if the
malformed line had never happened. -/
theorem C6_parse_error_then_recover {α : Type} (h : String → Json → AcpResult Json)
    (st : ServerConnState α) (e m : String) (i p : Json) :
    serverProcessLines h st [.malformed e, .frame (requestJson m i p)] =
      ([parseErrorResponse e, responseFor h m i p], st) ∧
    (parseErrorResponse e).error.map JsonRpcError.code = some (-32700) ∧
    (parseErrorResponse e).id = .null ∧
    serverProcessLines h st [.frame (requestJson m i p)] = ([responseFor h m i p], st) := by
  refine ⟨?_, rfl, rfl, ?_⟩ <;>
    simp [serverProcessLines, serverHandleMessage, requestJson, Json.get, findField,
      Json.asStr, parseErrorResponse, codes.PARSE_ERROR]

end HeroAcp

namespace HeroAcp

/-! ## Claim C1: update/Response ordering on the wire -/

theorem updatesOf_append (a b : List OutMsg) :
    updatesOf (a ++ b) = updatesOf a ++ updatesOf b := by
  induction a with
  | nil => rfl
  | cons m rest ih => cases m <;> simp [updatesOf, ih]

/-- The pipeline's inductive invariant: the update tokens, distributed over
wire, outbound queue, update channel and the handler's remaining pushes,
are exactly the push sequence in order; the Response is enqueued only with
the handler finished; and a Response in either queue means it was
enqueued. -/
def pipelineInv (us : List Nat) (s : PipelineState) : Prop :=
  (updatesOf s.wire ++ updatesOf s.outQ ++ s.updateQ ++ s.pushes = us) ∧
  (s.respSent = true → s.handlerDone = true) ∧
  ((OutMsg.response ∈ s.outQ ∨ OutMsg.response ∈ s.wire) → s.respSent = true)

theorem pipelineInv_init (us : List Nat) : pipelineInv us (pipelineInit us) := by
  refine ⟨by simp [pipelineInit, updatesOf], by simp [pipelineInit], by simp [pipelineInit]⟩

theorem pipelineInv_step (us : List Nat) (s : PipelineState) (t : PipelineTask)
    (h : pipelineInv us s) : pipelineInv us (pipelineStep s t) := by
  obtain ⟨hflow, hresp, hin⟩ := h
  cases t with
  | handler =>
      cases hp : s.pushes with
      | nil =>
          have hstep : pipelineStep s .handler = { s with handlerDone := true } := by
            simp [pipelineStep, hp]
          rw [hstep]
          exact ⟨hflow, fun _ => rfl, hin⟩
      | cons u rest =>
          have hstep : pipelineStep s .handler =
              { s with pushes := rest, updateQ := s.updateQ ++ [u] } := by
            simp [pipelineStep, hp]
          rw [hstep]
          refine ⟨?_, hresp, hin⟩
          rw [← hflow, hp]
          simp
  | forwarder =>
      cases hq : s.updateQ with
      | nil =>
          have hstep : pipelineStep s .forwarder = s := by simp [pipelineStep, hq]
          rw [hstep]
          exact ⟨hflow, hresp, hin⟩
      | cons u rest =>
          have hstep : pipelineStep s .forwarder =
              { s with updateQ := rest, outQ := s.outQ ++ [.update u] } := by
            simp [pipelineStep, hq]
          rw [hstep]
          refine ⟨?_, hresp, ?_⟩
          · rw [← hflow, hq]
            simp [updatesOf_append, updatesOf]
          · intro hmem
            apply hin
            rcases hmem with hmem | hmem
            · rw [List.mem_append] at hmem
              rcases hmem with hmem | hmem
              · exact Or.inl hmem
              · simp at hmem
            · exact Or.inr hmem
  | main =>
      cases hd : s.handlerDone with
      | false =>
          have hstep : pipelineStep s .main = s := by simp [pipelineStep, hd]
          rw [hstep]
          exact ⟨hflow, hresp, hin⟩
      | true =>
          cases hr : s.respSent with
          | true =>
              have hstep : pipelineStep s .main = s := by simp [pipelineStep, hd, hr]
              rw [hstep]
              exact ⟨hflow, hresp, hin⟩
          | false =>
              have hstep : pipelineStep s .main =
                  { s with respSent := true, outQ := s.outQ ++ [.response] } := by
                simp [pipelineStep, hd, hr]
              rw [hstep]
              refine ⟨?_, fun _ => hd, fun _ => rfl⟩
              rw [← hflow]
              simp [updatesOf_append, updatesOf]
  | writer =>
      cases hq : s.outQ with
      | nil =>
          have hstep : pipelineStep s .writer = s := by simp [pipelineStep, hq]
          rw [hstep]
          exact ⟨hflow, hresp, hin⟩
      | cons msg rest =>
          have hstep : pipelineStep s .writer =
              { s with outQ := rest, wire := s.wire ++ [msg] } := by
            simp [pipelineStep, hq]
          rw [hstep]
          refine ⟨?_, hresp, ?_⟩
          · rw [← hflow, hq]
            cases msg <;> simp [updatesOf_append, updatesOf]
          · intro hmem
            apply hin
            rcases hmem with hmem | hmem
            · exact Or.inl (by rw [hq]; exact List.mem_cons_of_mem _ hmem)
            · rw [List.mem_append] at hmem
              rcases hmem with hmem | hmem
              · exact Or.inr hmem
              · simp at hmem
                exact Or.inl (by rw [hq, ← hmem]; exact List.mem_cons_self _ _)

theorem pipelineInv_run (us : List Nat) (sched : List PipelineTask) :
    pipelineInv us (pipelineRun (pipelineInit us) sched) := by
  suffices hgen : ∀ (s : PipelineState), pipelineInv us s →
      pipelineInv us (pipelineRun s sched) from
    hgen (pipelineInit us) (pipelineInv_init us)
  induction sched with
  | nil => intro s hs; exact hs
  | cons t ts ih =>
      intro s hs
      exact ih (pipelineStep s t) (pipelineInv_step us s t hs)

/-- C1 (amended): under every schedule of the four pipeline tasks, the
`session/update` notifications reach the wire in push order — the wire's
update sequence is always a prefix of the handler's push sequence — and
the Response reaches the wire only after the handler has returned.  The
claim's stronger guarantee, that every update pushed before the handler
returned precedes the Response on the wire, does not hold: updates cross a
separate forwarder task that races the main loop's Response enqueue (see
the counterexample). -/
theorem C1_update_order (us : List Nat) (sched : List PipelineTask) :
    (∃ rest, us = updatesOf (pipelineRun (pipelineInit us) sched).wire ++ rest) ∧
    (OutMsg.response ∈ (pipelineRun (pipelineInit us) sched).wire →
      (pipelineRun (pipelineInit us) sched).handlerDone = true) := by
  obtain ⟨hflow, hresp, hin⟩ := pipelineInv_run us sched
  constructor
  · refine ⟨updatesOf (pipelineRun (pipelineInit us) sched).outQ ++
      (pipelineRun (pipelineInit us) sched).updateQ ++
      (pipelineRun (pipelineInit us) sched).pushes, ?_⟩
    conv_lhs => rw [← hflow]
    simp
  · intro hmem
    exact hresp (hin (Or.inr hmem))

/-- C1 counterexample: the handler pushes update 7 into the update channel
and returns; the main loop enqueues and the writer writes the Response
before the forwarder has moved the update onto the outbound queue, so the
peer sees the Response first and the update — pushed before the handler
returned — after it. -/
theorem C1_counterexample :
    (pipelineRun (pipelineInit [7]) overtakeSched).wire = [.response, .update 7] ∧
    noUpdateAfterResponse (pipelineRun (pipelineInit [7]) overtakeSched).wire = false ∧
    (pipelineRun (pipelineInit [7]) overtakeSched).respSent = true := by
  decide

/-- C1 witness: the amended theorem applied to a schedule that does write
the Response; the update arrives first and the handler had returned. -/
theorem C1_update_order_witness :
    (pipelineRun (pipelineInit [5])
        [.handler, .handler, .forwarder, .main, .writer, .writer]).handlerDone = true :=
  (C1_update_order [5] [.handler, .handler, .forwarder, .main, .writer, .writer]).2
    (by decide)

end HeroAcp
